import Mathlib

/-!
Verification development for the CPU virtualization core of this repository:
the paging-aware address-translation cache (src/include/paging.h), the
0x0F-escape instruction handlers (src/src/cpu/core_normal/prefix_0f.h), and
the dynamic-recompiler FPU dispatch (src/src/cpu/core_dynrec/dyn_fpu.h).

Machine integers are embedded as `Nat` with explicit masking/modular
reduction where the C code wraps.  Host pointers (`HostPt`) are embedded as
`Option Nat`: `none` is the null pointer, `some b` a non-null base offset
into host memory, so that `tlb_addr + address` becomes `b + address` used as
an index into the host byte store.  Page handlers are polymorphic capability
objects in C++; here a handler is a record of abstract operation functions
acting on an abstract device state.
-/

/-- Abstract device-side state mutated by page-handler writes (MMIO models
and similar).  The paging layer treats it as opaque. -/
abbrev Dev := Nat → Nat

/-- Pointwise function update, used to model a byte store into a flat
byte array. -/
def updFn (f : Nat → Nat) (i v : Nat) : Nat → Nat :=
  fun j => if j = i then v else f j

/-- Embedding of the `PageHandler` interface of src/include/paging.h lines
45-69.  Sized reads return a value (possibly synthesized from device state),
sized writes transform the device state.  The checked variants are modelled
from the spec: the repository implements them in paging.cpp/mem.cpp (not in
src/); per the spec they return a status instead of trapping and leave the
caller's output untouched on failure, which `Option` captures: `none` is a
reported failure, `some` carries the produced value / new device state. -/
structure PageHandlerS where
  readb : Nat → Dev → Nat
  readw : Nat → Dev → Nat
  readd : Nat → Dev → Nat
  readq : Nat → Dev → Nat
  writeb : Nat → Nat → Dev → Dev
  writew : Nat → Nat → Dev → Dev
  writed : Nat → Nat → Dev → Dev
  writeq : Nat → Nat → Dev → Dev
  readb_checked : Nat → Dev → Option Nat
  readw_checked : Nat → Dev → Option Nat
  readd_checked : Nat → Dev → Option Nat
  readq_checked : Nat → Dev → Option Nat
  writeb_checked : Nat → Nat → Dev → Option Dev
  writew_checked : Nat → Nat → Dev → Option Dev
  writed_checked : Nat → Nat → Dev → Option Dev
  writeq_checked : Nat → Nat → Dev → Option Dev

/-- Embedding of the full-TLB variant of `paging.tlb` (src/include/paging.h
lines 199-208): per linear page a host read pointer, a host write pointer,
and the registered read/write handlers.  The fixed array size TLB_SIZE is
immaterial to the claims, so the tables are total functions on page
numbers. -/
structure PagingTlbS where
  read : Nat → Option Nat
  write : Nat → Option Nat
  readhandler : Nat → PageHandlerS
  writehandler : Nat → PageHandlerS

/-- Combined mutable memory state seen by the inline accessors: the flat
host byte store plus the abstract device state behind handlers. -/
structure MachineS where
  host : Nat → Nat
  dev : Dev

/-- Embedding of `get_tlb_read` (paging.h lines 256-259). -/
def get_tlb_read (tlb : PagingTlbS) (address : Nat) : Option Nat :=
  tlb.read (address >>> 12)

/-- Embedding of `get_tlb_write` (paging.h lines 260-262). -/
def get_tlb_write (tlb : PagingTlbS) (address : Nat) : Option Nat :=
  tlb.write (address >>> 12)

/-- Embedding of `get_tlb_readhandler` (paging.h lines 263-265). -/
def get_tlb_readhandler (tlb : PagingTlbS) (address : Nat) : PageHandlerS :=
  tlb.readhandler (address >>> 12)

/-- Embedding of `get_tlb_writehandler` (paging.h lines 266-268). -/
def get_tlb_writehandler (tlb : PagingTlbS) (address : Nat) : PageHandlerS :=
  tlb.writehandler (address >>> 12)

/-- Modelled from the spec: `host_readb` lives in include/mem.h (not under
src/); it dereferences a host byte pointer. -/
def host_readb (host : Nat → Nat) (addr : Nat) : Nat :=
  host addr

/-- Modelled from the spec: `host_readw` (include/mem.h, not under src/)
reads two consecutive host bytes and reassembles them in the host's
declared endianness (little-endian byte order here). -/
def host_readw (host : Nat → Nat) (addr : Nat) : Nat :=
  host addr ||| (host (addr + 1)) <<< 8

/-- Modelled from the spec: `host_readd` (include/mem.h, not under src/),
four consecutive host bytes assembled little-endian. -/
def host_readd (host : Nat → Nat) (addr : Nat) : Nat :=
  host addr ||| (host (addr + 1)) <<< 8 ||| (host (addr + 2)) <<< 16 |||
    (host (addr + 3)) <<< 24

/-- Modelled from the spec: `host_readq` (include/mem.h, not under src/),
eight consecutive host bytes assembled little-endian. -/
def host_readq (host : Nat → Nat) (addr : Nat) : Nat :=
  host addr ||| (host (addr + 1)) <<< 8 ||| (host (addr + 2)) <<< 16 |||
    (host (addr + 3)) <<< 24 ||| (host (addr + 4)) <<< 32 |||
    (host (addr + 5)) <<< 40 ||| (host (addr + 6)) <<< 48 |||
    (host (addr + 7)) <<< 56

/-- Modelled from the spec: `host_writeb` (include/mem.h, not under src/)
stores one byte at a host pointer. -/
def host_writeb (host : Nat → Nat) (addr v : Nat) : Nat → Nat :=
  updFn host addr v

/-- Modelled from the spec: `host_writew` (include/mem.h, not under src/)
stores the two little-endian bytes of a 16-bit value. -/
def host_writew (host : Nat → Nat) (addr v : Nat) : Nat → Nat :=
  host_writeb (host_writeb host addr (v &&& 0xff)) (addr + 1) ((v >>> 8) &&& 0xff)

/-- Modelled from the spec: `host_writed` (include/mem.h, not under src/)
stores the four little-endian bytes of a 32-bit value. -/
def host_writed (host : Nat → Nat) (addr v : Nat) : Nat → Nat :=
  host_writeb (host_writeb (host_writeb (host_writeb host
    addr (v &&& 0xff))
    (addr + 1) ((v >>> 8) &&& 0xff))
    (addr + 2) ((v >>> 16) &&& 0xff))
    (addr + 3) ((v >>> 24) &&& 0xff)

/-- Modelled from the spec: `host_writeq` (include/mem.h, not under src/)
stores the eight little-endian bytes of a 64-bit value. -/
def host_writeq (host : Nat → Nat) (addr v : Nat) : Nat → Nat :=
  host_writeb (host_writeb (host_writeb (host_writeb (host_writeb
    (host_writeb (host_writeb (host_writeb host
    addr (v &&& 0xff))
    (addr + 1) ((v >>> 8) &&& 0xff))
    (addr + 2) ((v >>> 16) &&& 0xff))
    (addr + 3) ((v >>> 24) &&& 0xff))
    (addr + 4) ((v >>> 32) &&& 0xff))
    (addr + 5) ((v >>> 40) &&& 0xff))
    (addr + 6) ((v >>> 48) &&& 0xff))
    (addr + 7) ((v >>> 56) &&& 0xff)

/-- Embedding of `mem_readb_inline` (paging.h lines 331-343).  The
`MemOpMode::WithBreakpoints` debugger hook compiles to nothing outside
debugger builds and is not part of the memory semantics, so it is not
modelled. -/
def mem_readb_inline (tlb : PagingTlbS) (m : MachineS) (address : Nat) : Nat :=
  match get_tlb_read tlb address with
  | some tlb_addr => host_readb m.host (tlb_addr + address)
  | none => (get_tlb_readhandler tlb address).readb address m.dev

/-- Embedding of `mem_writeb_inline` (paging.h lines 398-403). -/
def mem_writeb_inline (tlb : PagingTlbS) (m : MachineS) (address v : Nat) :
    MachineS :=
  match get_tlb_write tlb address with
  | some tlb_addr => { m with host := host_writeb m.host (tlb_addr + address) v }
  | none => { m with dev := (get_tlb_writehandler tlb address).writeb address v m.dev }

/-- Modelled from the spec: `mem_unalignedreadw` is implemented in
src/memory.cpp (not under src/); the spec says page-straddling accesses
decompose into the sequence of single-page operations reassembled in host
endianness, which for a word is the two byte reads below. -/
def mem_unalignedreadw (tlb : PagingTlbS) (m : MachineS) (address : Nat) : Nat :=
  mem_readb_inline tlb m address |||
    (mem_readb_inline tlb m (address + 1)) <<< 8

/-- Modelled from the spec: `mem_unalignedreadd` (src/memory.cpp, not under
src/), four single-byte reads reassembled little-endian. -/
def mem_unalignedreadd (tlb : PagingTlbS) (m : MachineS) (address : Nat) : Nat :=
  mem_readb_inline tlb m address |||
    (mem_readb_inline tlb m (address + 1)) <<< 8 |||
    (mem_readb_inline tlb m (address + 2)) <<< 16 |||
    (mem_readb_inline tlb m (address + 3)) <<< 24

/-- Modelled from the spec: `mem_unalignedreadq` (src/memory.cpp, not under
src/), eight single-byte reads reassembled little-endian. -/
def mem_unalignedreadq (tlb : PagingTlbS) (m : MachineS) (address : Nat) : Nat :=
  mem_readb_inline tlb m address |||
    (mem_readb_inline tlb m (address + 1)) <<< 8 |||
    (mem_readb_inline tlb m (address + 2)) <<< 16 |||
    (mem_readb_inline tlb m (address + 3)) <<< 24 |||
    (mem_readb_inline tlb m (address + 4)) <<< 32 |||
    (mem_readb_inline tlb m (address + 5)) <<< 40 |||
    (mem_readb_inline tlb m (address + 6)) <<< 48 |||
    (mem_readb_inline tlb m (address + 7)) <<< 56

/-- Modelled from the spec: `mem_unalignedwritew` (src/memory.cpp, not
under src/), the two little-endian byte writes performed in address
order. -/
def mem_unalignedwritew (tlb : PagingTlbS) (m : MachineS) (address v : Nat) :
    MachineS :=
  let m1 := mem_writeb_inline tlb m address (v &&& 0xff)
  mem_writeb_inline tlb m1 (address + 1) ((v >>> 8) &&& 0xff)

/-- Modelled from the spec: `mem_unalignedwrited` (src/memory.cpp, not
under src/), four little-endian byte writes in address order. -/
def mem_unalignedwrited (tlb : PagingTlbS) (m : MachineS) (address v : Nat) :
    MachineS :=
  let m1 := mem_writeb_inline tlb m address (v &&& 0xff)
  let m2 := mem_writeb_inline tlb m1 (address + 1) ((v >>> 8) &&& 0xff)
  let m3 := mem_writeb_inline tlb m2 (address + 2) ((v >>> 16) &&& 0xff)
  mem_writeb_inline tlb m3 (address + 3) ((v >>> 24) &&& 0xff)

/-- Modelled from the spec: `mem_unalignedwriteq` (src/memory.cpp, not
under src/), eight little-endian byte writes in address order. -/
def mem_unalignedwriteq (tlb : PagingTlbS) (m : MachineS) (address v : Nat) :
    MachineS :=
  let m1 := mem_writeb_inline tlb m address (v &&& 0xff)
  let m2 := mem_writeb_inline tlb m1 (address + 1) ((v >>> 8) &&& 0xff)
  let m3 := mem_writeb_inline tlb m2 (address + 2) ((v >>> 16) &&& 0xff)
  let m4 := mem_writeb_inline tlb m3 (address + 3) ((v >>> 24) &&& 0xff)
  let m5 := mem_writeb_inline tlb m4 (address + 4) ((v >>> 32) &&& 0xff)
  let m6 := mem_writeb_inline tlb m5 (address + 5) ((v >>> 40) &&& 0xff)
  let m7 := mem_writeb_inline tlb m6 (address + 6) ((v >>> 48) &&& 0xff)
  mem_writeb_inline tlb m7 (address + 7) ((v >>> 56) &&& 0xff)

/-- Embedding of `mem_readw_inline` (paging.h lines 345-361): fast
path/handler dispatch when the word lies within one page (page offset below
0xfff), unaligned fallback otherwise. -/
def mem_readw_inline (tlb : PagingTlbS) (m : MachineS) (address : Nat) : Nat :=
  if address &&& 0xfff < 0xfff then
    match get_tlb_read tlb address with
    | some tlb_addr => host_readw m.host (tlb_addr + address)
    | none => (get_tlb_readhandler tlb address).readw address m.dev
  else mem_unalignedreadw tlb m address

/-- Embedding of `mem_readd_inline` (paging.h lines 363-378). -/
def mem_readd_inline (tlb : PagingTlbS) (m : MachineS) (address : Nat) : Nat :=
  if address &&& 0xfff < 0xffd then
    match get_tlb_read tlb address with
    | some tlb_addr => host_readd m.host (tlb_addr + address)
    | none => (get_tlb_readhandler tlb address).readd address m.dev
  else mem_unalignedreadd tlb m address

/-- Embedding of `mem_readq_inline` (paging.h lines 380-396). -/
def mem_readq_inline (tlb : PagingTlbS) (m : MachineS) (address : Nat) : Nat :=
  if address &&& 0xfff < 0xff9 then
    match get_tlb_read tlb address with
    | some tlb_addr => host_readq m.host (tlb_addr + address)
    | none => (get_tlb_readhandler tlb address).readq address m.dev
  else mem_unalignedreadq tlb m address

/-- Embedding of `mem_writew_inline` (paging.h lines 405-411). -/
def mem_writew_inline (tlb : PagingTlbS) (m : MachineS) (address v : Nat) :
    MachineS :=
  if address &&& 0xfff < 0xfff then
    match get_tlb_write tlb address with
    | some tlb_addr => { m with host := host_writew m.host (tlb_addr + address) v }
    | none => { m with dev := (get_tlb_writehandler tlb address).writew address v m.dev }
  else mem_unalignedwritew tlb m address v

/-- Embedding of `mem_writed_inline` (paging.h lines 413-419). -/
def mem_writed_inline (tlb : PagingTlbS) (m : MachineS) (address v : Nat) :
    MachineS :=
  if address &&& 0xfff < 0xffd then
    match get_tlb_write tlb address with
    | some tlb_addr => { m with host := host_writed m.host (tlb_addr + address) v }
    | none => { m with dev := (get_tlb_writehandler tlb address).writed address v m.dev }
  else mem_unalignedwrited tlb m address v

/-- Embedding of `mem_writeq_inline` (paging.h lines 421-433). -/
def mem_writeq_inline (tlb : PagingTlbS) (m : MachineS) (address v : Nat) :
    MachineS :=
  if address &&& 0xfff < 0xff9 then
    match get_tlb_write tlb address with
    | some tlb_addr => { m with host := host_writeq m.host (tlb_addr + address) v }
    | none => { m with dev := (get_tlb_writehandler tlb address).writeq address v m.dev }
  else mem_unalignedwriteq tlb m address v

/-- Embedding of `mem_readb_checked` (paging.h lines 435-441).  The C
function takes the output location by pointer and returns `true` exactly
when the access failed; here the caller's current output value is threaded
through as `val` and the result pairs the failure flag with the (possibly
unchanged) output value. -/
def mem_readb_checked (tlb : PagingTlbS) (m : MachineS) (address val : Nat) :
    Bool × Nat :=
  match get_tlb_read tlb address with
  | some tlb_addr => (false, host_readb m.host (tlb_addr + address))
  | none =>
    match (get_tlb_readhandler tlb address).readb_checked address m.dev with
    | some v => (false, v)
    | none => (true, val)

/-- Modelled from the spec: `mem_unalignedreadw_checked` (src/memory.cpp,
not under src/): two checked byte reads, failing without touching the
caller's output if either fails.  The C reads into uninitialized locals
before assembling, modelled by the dummy argument 0. -/
def mem_unalignedreadw_checked (tlb : PagingTlbS) (m : MachineS)
    (address val : Nat) : Bool × Nat :=
  let r1 := mem_readb_checked tlb m address 0
  if r1.1 then (true, val)
  else
    let r2 := mem_readb_checked tlb m (address + 1) 0
    if r2.1 then (true, val)
    else (false, r1.2 ||| r2.2 <<< 8)

/-- Modelled from the spec: `mem_unalignedreadd_checked` (src/memory.cpp,
not under src/), four checked byte reads. -/
def mem_unalignedreadd_checked (tlb : PagingTlbS) (m : MachineS)
    (address val : Nat) : Bool × Nat :=
  let r1 := mem_readb_checked tlb m address 0
  if r1.1 then (true, val)
  else
    let r2 := mem_readb_checked tlb m (address + 1) 0
    if r2.1 then (true, val)
    else
      let r3 := mem_readb_checked tlb m (address + 2) 0
      if r3.1 then (true, val)
      else
        let r4 := mem_readb_checked tlb m (address + 3) 0
        if r4.1 then (true, val)
        else (false, r1.2 ||| r2.2 <<< 8 ||| r3.2 <<< 16 ||| r4.2 <<< 24)

/-- Modelled from the spec: `mem_unalignedreadq_checked` (src/memory.cpp,
not under src/), eight checked byte reads. -/
def mem_unalignedreadq_checked (tlb : PagingTlbS) (m : MachineS)
    (address val : Nat) : Bool × Nat :=
  let r1 := mem_readb_checked tlb m address 0
  if r1.1 then (true, val)
  else
    let r2 := mem_readb_checked tlb m (address + 1) 0
    if r2.1 then (true, val)
    else
      let r3 := mem_readb_checked tlb m (address + 2) 0
      if r3.1 then (true, val)
      else
        let r4 := mem_readb_checked tlb m (address + 3) 0
        if r4.1 then (true, val)
        else
          let r5 := mem_readb_checked tlb m (address + 4) 0
          if r5.1 then (true, val)
          else
            let r6 := mem_readb_checked tlb m (address + 5) 0
            if r6.1 then (true, val)
            else
              let r7 := mem_readb_checked tlb m (address + 6) 0
              if r7.1 then (true, val)
              else
                let r8 := mem_readb_checked tlb m (address + 7) 0
                if r8.1 then (true, val)
                else (false, r1.2 ||| r2.2 <<< 8 ||| r3.2 <<< 16 |||
                  r4.2 <<< 24 ||| r5.2 <<< 32 ||| r6.2 <<< 40 |||
                  r7.2 <<< 48 ||| r8.2 <<< 56)

/-- Embedding of `mem_readw_checked` (paging.h lines 443-451). -/
def mem_readw_checked (tlb : PagingTlbS) (m : MachineS) (address val : Nat) :
    Bool × Nat :=
  if address &&& 0xfff < 0xfff then
    match get_tlb_read tlb address with
    | some tlb_addr => (false, host_readw m.host (tlb_addr + address))
    | none =>
      match (get_tlb_readhandler tlb address).readw_checked address m.dev with
      | some v => (false, v)
      | none => (true, val)
  else mem_unalignedreadw_checked tlb m address val

/-- Embedding of `mem_readd_checked` (paging.h lines 453-461). -/
def mem_readd_checked (tlb : PagingTlbS) (m : MachineS) (address val : Nat) :
    Bool × Nat :=
  if address &&& 0xfff < 0xffd then
    match get_tlb_read tlb address with
    | some tlb_addr => (false, host_readd m.host (tlb_addr + address))
    | none =>
      match (get_tlb_readhandler tlb address).readd_checked address m.dev with
      | some v => (false, v)
      | none => (true, val)
  else mem_unalignedreadd_checked tlb m address val

/-- Embedding of `mem_readq_checked` (paging.h lines 463-476). -/
def mem_readq_checked (tlb : PagingTlbS) (m : MachineS) (address val : Nat) :
    Bool × Nat :=
  if address &&& 0xfff < 0xff9 then
    match get_tlb_read tlb address with
    | some tlb_addr => (false, host_readq m.host (tlb_addr + address))
    | none =>
      match (get_tlb_readhandler tlb address).readq_checked address m.dev with
      | some v => (false, v)
      | none => (true, val)
  else mem_unalignedreadq_checked tlb m address val

/-- Embedding of `mem_writeb_checked` (paging.h lines 478-485): result pairs
the failure flag with the possibly updated machine state. -/
def mem_writeb_checked (tlb : PagingTlbS) (m : MachineS) (address v : Nat) :
    Bool × MachineS :=
  match get_tlb_write tlb address with
  | some tlb_addr => (false, { m with host := host_writeb m.host (tlb_addr + address) v })
  | none =>
    match (get_tlb_writehandler tlb address).writeb_checked address v m.dev with
    | some d1 => (false, { m with dev := d1 })
    | none => (true, m)

/-- Modelled from the spec: `mem_unalignedwritew_checked` (src/memory.cpp,
not under src/): checked byte writes in address order, stopping at the
first failure. -/
def mem_unalignedwritew_checked (tlb : PagingTlbS) (m : MachineS)
    (address v : Nat) : Bool × MachineS :=
  let r1 := mem_writeb_checked tlb m address (v &&& 0xff)
  if r1.1 then (true, r1.2)
  else
    let r2 := mem_writeb_checked tlb r1.2 (address + 1) ((v >>> 8) &&& 0xff)
    if r2.1 then (true, r1.2)
    else (false, r2.2)

/-- Modelled from the spec: `mem_unalignedwrited_checked` (src/memory.cpp,
not under src/), four checked byte writes in address order. -/
def mem_unalignedwrited_checked (tlb : PagingTlbS) (m : MachineS)
    (address v : Nat) : Bool × MachineS :=
  let r1 := mem_writeb_checked tlb m address (v &&& 0xff)
  if r1.1 then (true, r1.2)
  else
    let r2 := mem_writeb_checked tlb r1.2 (address + 1) ((v >>> 8) &&& 0xff)
    if r2.1 then (true, r1.2)
    else
      let r3 := mem_writeb_checked tlb r2.2 (address + 2) ((v >>> 16) &&& 0xff)
      if r3.1 then (true, r2.2)
      else
        let r4 := mem_writeb_checked tlb r3.2 (address + 3) ((v >>> 24) &&& 0xff)
        if r4.1 then (true, r3.2)
        else (false, r4.2)

/-- Modelled from the spec: `mem_unalignedwriteq_checked` (src/memory.cpp,
not under src/), eight checked byte writes in address order. -/
def mem_unalignedwriteq_checked (tlb : PagingTlbS) (m : MachineS)
    (address v : Nat) : Bool × MachineS :=
  let r1 := mem_writeb_checked tlb m address (v &&& 0xff)
  if r1.1 then (true, r1.2)
  else
    let r2 := mem_writeb_checked tlb r1.2 (address + 1) ((v >>> 8) &&& 0xff)
    if r2.1 then (true, r1.2)
    else
      let r3 := mem_writeb_checked tlb r2.2 (address + 2) ((v >>> 16) &&& 0xff)
      if r3.1 then (true, r2.2)
      else
        let r4 := mem_writeb_checked tlb r3.2 (address + 3) ((v >>> 24) &&& 0xff)
        if r4.1 then (true, r3.2)
        else
          let r5 := mem_writeb_checked tlb r4.2 (address + 4) ((v >>> 32) &&& 0xff)
          if r5.1 then (true, r4.2)
          else
            let r6 := mem_writeb_checked tlb r5.2 (address + 5) ((v >>> 40) &&& 0xff)
            if r6.1 then (true, r5.2)
            else
              let r7 := mem_writeb_checked tlb r6.2 (address + 6) ((v >>> 48) &&& 0xff)
              if r7.1 then (true, r6.2)
              else
                let r8 := mem_writeb_checked tlb r7.2 (address + 7) ((v >>> 56) &&& 0xff)
                if r8.1 then (true, r7.2)
                else (false, r8.2)

/-- Embedding of `mem_writew_checked` (paging.h lines 487-495). -/
def mem_writew_checked (tlb : PagingTlbS) (m : MachineS) (address v : Nat) :
    Bool × MachineS :=
  if address &&& 0xfff < 0xfff then
    match get_tlb_write tlb address with
    | some tlb_addr => (false, { m with host := host_writew m.host (tlb_addr + address) v })
    | none =>
      match (get_tlb_writehandler tlb address).writew_checked address v m.dev with
      | some d1 => (false, { m with dev := d1 })
      | none => (true, m)
  else mem_unalignedwritew_checked tlb m address v

/-- Embedding of `mem_writed_checked` (paging.h lines 497-505). -/
def mem_writed_checked (tlb : PagingTlbS) (m : MachineS) (address v : Nat) :
    Bool × MachineS :=
  if address &&& 0xfff < 0xffd then
    match get_tlb_write tlb address with
    | some tlb_addr => (false, { m with host := host_writed m.host (tlb_addr + address) v })
    | none =>
      match (get_tlb_writehandler tlb address).writed_checked address v m.dev with
      | some d1 => (false, { m with dev := d1 })
      | none => (true, m)
  else mem_unalignedwrited_checked tlb m address v

/-- Embedding of `mem_writeq_checked` (paging.h lines 507-520). -/
def mem_writeq_checked (tlb : PagingTlbS) (m : MachineS) (address v : Nat) :
    Bool × MachineS :=
  if address &&& 0xfff < 0xff9 then
    match get_tlb_write tlb address with
    | some tlb_addr => (false, { m with host := host_writeq m.host (tlb_addr + address) v })
    | none =>
      match (get_tlb_writehandler tlb address).writeq_checked address v m.dev with
      | some d1 => (false, { m with dev := d1 })
      | none => (true, m)
  else mem_unalignedwriteq_checked tlb m address v

/-- Embedding of the little-endian `X86PageEntry` bit-field layout
(paging.h lines 105-117).  Each field holds the truncated value the C
bit-field stores; `set` only ever stores masked values that fit. -/
structure X86PageEntry where
  p : Nat
  wr : Nat
  us : Nat
  pwt : Nat
  pcd : Nat
  a : Nat
  d : Nat
  pat : Nat
  g : Nat
  avl : Nat
  base : Nat

/-- Embedding of `X86PageEntry::set`, little-endian branch (paging.h lines
133-145). -/
def X86PageEntry.set (value : Nat) : X86PageEntry :=
  { p := value &&& 0x1
    wr := (value >>> 1) &&& 0x1
    us := (value >>> 2) &&& 0x1
    pwt := (value >>> 3) &&& 0x1
    pcd := (value >>> 4) &&& 0x1
    a := (value >>> 5) &&& 0x1
    d := (value >>> 6) &&& 0x1
    pat := (value >>> 7) &&& 0x1
    g := (value >>> 8) &&& 0x1
    avl := (value >>> 9) &&& 0x7
    base := (value >>> 12) &&& 0xFFFFF }

/-- Embedding of `X86PageEntry::get`, little-endian branch (paging.h lines
163-175): the successive `value |=` accumulation. -/
def X86PageEntry.get (e : X86PageEntry) : Nat :=
  e.p ||| e.wr <<< 1 ||| e.us <<< 2 ||| e.pwt <<< 3 ||| e.pcd <<< 4 |||
    e.a <<< 5 ||| e.d <<< 6 ||| e.pat <<< 7 ||| e.g <<< 8 ||| e.avl <<< 9 |||
    e.base <<< 12

/-- Embedding of `FPU_FDECSTP` (dyn_fpu.h lines 14-16): `TOP = (TOP-1) & 7`
where TOP is an unsigned machine integer (fpu.h defines it as the unsigned
`fpu.top`; fpu.h is not under src/, the 64-bit width modelled here is
immaterial because 8 divides 2^64). -/
def FPU_FDECSTP (top : Nat) : Nat :=
  ((top + (2 ^ 64 - 1)) % 2 ^ 64) &&& 7

/-- Embedding of `FPU_FINCSTP` (dyn_fpu.h lines 18-20): `TOP = (TOP+1) & 7`. -/
def FPU_FINCSTP (top : Nat) : Nat :=
  ((top + 1) % 2 ^ 64) &&& 7

/-- Values held by the code generator's two scratch operand registers
FC_OP1 and FC_OP2 in the generated code, abstractly interpreted: each
`gen_*` call in dyn_fpu.h becomes the arithmetic the emitted host code
performs on these registers at run time (32-bit, so additions wrap modulo
2^32). -/
structure GenRegs where
  fc_op1 : Nat
  fc_op2 : Nat

/-- Embedding of `dyn_fpu_top` (dyn_fpu.h lines 36-41): FC_OP2 := TOP;
FC_OP2 := (FC_OP2 + rm) mod 2^32; FC_OP2 := FC_OP2 and 7; FC_OP1 := TOP. -/
def dyn_fpu_top (top rm : Nat) (r : GenRegs) : GenRegs :=
  let r1 := { r with fc_op2 := top }
  let r2 := { r1 with fc_op2 := (r1.fc_op2 + rm) % 2 ^ 32 }
  let r3 := { r2 with fc_op2 := r2.fc_op2 &&& 7 }
  { r3 with fc_op1 := top }

/-- Embedding of `dyn_fpu_top_swapped` (dyn_fpu.h lines 43-48). -/
def dyn_fpu_top_swapped (top rm : Nat) (r : GenRegs) : GenRegs :=
  let r1 := { r with fc_op1 := top }
  let r2 := { r1 with fc_op1 := (r1.fc_op1 + rm) % 2 ^ 32 }
  let r3 := { r2 with fc_op1 := r2.fc_op1 &&& 7 }
  { r3 with fc_op2 := top }

/-- Embedding of the FLD STi operand setup of `dyn_fpu_esc1` (dyn_fpu.h
lines 133-135): FC_OP1 := ((TOP + rm) mod 2^32) and 7, computed before the
stack push. -/
def dyn_fpu_esc1_fld_sti (top rm : Nat) (r : GenRegs) : GenRegs :=
  let r1 := { r with fc_op1 := top }
  let r2 := { r1 with fc_op1 := (r1.fc_op1 + rm) % 2 ^ 32 }
  { r2 with fc_op1 := r2.fc_op1 &&& 7 }

/-- Embedding of the FUCOMPP operand setup of `dyn_fpu_esc2` (dyn_fpu.h
lines 323-326); this case is reached only for rm = 1 (encoding 0xE9), and
the emitted code adds the immediate 1. -/
def dyn_fpu_esc2_fucompp (top : Nat) (r : GenRegs) : GenRegs :=
  let r1 := { r with fc_op2 := top }
  let r2 := { r1 with fc_op2 := (r1.fc_op2 + 1) % 2 ^ 32 }
  let r3 := { r2 with fc_op2 := r2.fc_op2 &&& 7 }
  { r3 with fc_op1 := top }

/-- Embedding of the FCOMPP case of `dyn_fpu_esc6` (dyn_fpu.h lines
553-563): rm other than 1 is rejected, otherwise the same operand setup as
FUCOMPP is emitted. -/
def dyn_fpu_esc6_fcompp (top rm : Nat) (r : GenRegs) : Option GenRegs :=
  if rm ≠ 1 then none
  else
    let r1 := { r with fc_op2 := top }
    let r2 := { r1 with fc_op2 := (r1.fc_op2 + 1) % 2 ^ 32 }
    let r3 := { r2 with fc_op2 := r2.fc_op2 &&& 7 }
    some { r3 with fc_op1 := top }

/-- Minimal CPU privilege/control state consulted by the MOV Rd,CRx
handler. -/
structure CpuS where
  pmode : Bool
  cpl : Nat
  cr : Nat → Nat

/-- State read and written by the 0F 20 handler: privilege state plus the
32-bit general register file (index 0 is EAX). -/
structure DecodeState where
  cpu : CpuS
  regs : Nat → Nat

/-- Modelled from the spec: `CPU_READ_CRX` is implemented in
src/cpu/cpu.cpp (not under src/).  Control-register reads are valid only at
privilege level zero: at non-zero privilege in protected mode the access
raises a protection-fault-equivalent condition before any state mutation,
otherwise it yields the designated control register's value. -/
def CPU_READ_CRX (which : Nat) (c : CpuS) : Option Nat :=
  if c.pmode ∧ c.cpl ≠ 0 then none else some (c.cr which)

/-- Embedding of the `CASE_0F_B(0x20)` MOV Rd,CRx handler (prefix_0f.h
lines 134-147): decode the reg and rm fields of the addressing byte, force
register-direct form, read the control register, and commit the destination
register only on success.  The Bool is true when the instruction faults
(`RUNEXCEPTION`), in which case the state is returned unmodified. -/
def exec_0f_20 (s : DecodeState) (rmByte : Nat) : Bool × DecodeState :=
  let which := (rmByte >>> 3) &&& 7
  let rm := if rmByte < 0xc0 then rmByte ||| 0xc0 else rmByte
  let eard := rm &&& 7
  match CPU_READ_CRX which s.cpu with
  | none => (true, s)
  | some v => (false, { s with regs := updFn s.regs eard v })

/-- CPU state consulted by the CMPXCHG and BSF handlers: a register file
(index 0 is the accumulator AL/AX), guest memory as resolved byte/word
cells at effective addresses, the zero flag, and the trace of memory write
events issued (each `SaveMb`/`SaveMw` appends one event), which records
that a write was issued even when it stores back the unchanged value. -/
structure CoreState where
  regs : Nat → Nat
  mem : Nat → Nat
  writes : List (Nat × Nat)
  zf : Bool

/-- Embedding of the `CASE_0F_B(0xb0)` cmpxchg Eb,Gb handler (prefix_0f.h
lines 346-373), after the architecture gate has passed and flags were
materialized.  `rm` is the addressing byte; `eaa` the resolved effective
address for the memory form. -/
def cmpxchg_eb_gb (s : CoreState) (rm eaa : Nat) : CoreState :=
  let rmrb := (rm >>> 3) &&& 7
  if 0xc0 ≤ rm then
    let earb := rm &&& 7
    if s.regs 0 = s.regs earb then
      { s with regs := updFn s.regs earb (s.regs rmrb), zf := true }
    else
      { s with regs := updFn s.regs 0 (s.regs earb), zf := false }
  else
    let val := s.mem eaa
    if s.regs 0 = val then
      { s with mem := updFn s.mem eaa (s.regs rmrb)
               writes := s.writes ++ [(eaa, s.regs rmrb)]
               zf := true }
    else
      { s with mem := updFn s.mem eaa val
               writes := s.writes ++ [(eaa, val)]
               regs := updFn s.regs 0 val
               zf := false }

/-- Embedding of the `CASE_0F_W(0xb1)` cmpxchg Ew,Gw handler (prefix_0f.h
lines 374-401); identical control flow on the 16-bit register file with AX
as accumulator. -/
def cmpxchg_ew_gw (s : CoreState) (rm eaa : Nat) : CoreState :=
  let rmrw := (rm >>> 3) &&& 7
  if 0xc0 ≤ rm then
    let earw := rm &&& 7
    if s.regs 0 = s.regs earw then
      { s with regs := updFn s.regs earw (s.regs rmrw), zf := true }
    else
      { s with regs := updFn s.regs 0 (s.regs earw), zf := false }
  else
    let val := s.mem eaa
    if s.regs 0 = val then
      { s with mem := updFn s.mem eaa (s.regs rmrw)
               writes := s.writes ++ [(eaa, s.regs rmrw)]
               zf := true }
    else
      { s with mem := updFn s.mem eaa val
               writes := s.writes ++ [(eaa, val)]
               regs := updFn s.regs 0 val
               zf := false }

/-- Embedding of the scan loop of BSF (prefix_0f.h line 533):
while the low bit is clear, increment the result and shift the value right.
The loop is reached only with a non-zero value; the extra `value` test in
the guard makes the recursion well-founded and agrees with the C loop on
every reachable input because a non-zero even value stays non-zero after
the shift. -/
def bsfLoop (value result : Nat) : Nat :=
  if h : value ≠ 0 ∧ value &&& 0x01 = 0 then bsfLoop (value >>> 1) (result + 1)
  else result
termination_by value
decreasing_by
  rw [Nat.shiftRight_eq_div_pow]
  exact Nat.div_lt_self (Nat.pos_of_ne_zero h.1) (by norm_num)

/-- Embedding of the `CASE_0F_W(0xbc)` BSF Gw,Ew handler (prefix_0f.h lines
523-539).  The lazy-flag bookkeeping `lflags.type = t_UNKNOWN` only marks
how later flag queries materialize and is not part of this state. -/
def bsf_gw_ew (s : CoreState) (rm eaa : Nat) : CoreState :=
  let rmrw := (rm >>> 3) &&& 7
  let value := if 0xc0 ≤ rm then s.regs (rm &&& 7) else s.mem eaa
  if value = 0 then { s with zf := true }
  else { s with zf := false, regs := updFn s.regs rmrw (bsfLoop value 0) }

/-- Modelled from the spec: a translated block of the dynamic recompiler's
block cache (core_dynrec cache and decoder, not under src/): guest start
address, covered length, the exact bytes the translation was derived from,
and the originating physical pages. -/
structure CacheBlock where
  start : Nat
  len : Nat
  bytes : List Nat
  pages : List Nat
  deriving DecidableEq

/-- Physical pages covered by a block of the given start and length, at the
4096-byte page granularity of PFLAG_HASCODE tracking (paging.h lines
34-38). -/
def blockPages (start len : Nat) : List Nat :=
  (((List.range len).map (fun i => (start + i) / 4096))).dedup

/-- Modelled from the spec: translating a basic block records the current
bytes it is derived from and its originating pages. -/
def translateBlock (mem : Nat → Nat) (start len : Nat) : CacheBlock :=
  { start := start
    len := len
    bytes := (List.range len).map (fun i => mem (start + i))
    pages := blockPages start len }

/-- State of the self-modifying-code safety model: guest byte memory, the
cache of translated blocks, and the per-page has-code flag (PFLAG_HASCODE). -/
structure DynState where
  mem : Nat → Nat
  cache : List CacheBlock
  hasCode : Nat → Bool

/-- Guest-visible events of the self-modifying-code model: caching a
translation of a basic block, or a guest byte write. -/
inductive DynOp where
  | translate (start len : Nat)
  | writeb (addr val : Nat)

/-- Modelled from the spec: one step of the engine.  Translation caches a
block and flags every originating page as containing code; a write to a
page flagged has-code first evicts every block whose originating pages
include that page, and only then lands in memory. -/
def dynStep (s : DynState) : DynOp → DynState
  | DynOp.translate start len =>
    { s with
      cache := translateBlock s.mem start len :: s.cache
      hasCode := fun pg => if pg ∈ blockPages start len then true else s.hasCode pg }
  | DynOp.writeb addr val =>
    let page := addr / 4096
    let s1 := if s.hasCode page then
        { s with cache := s.cache.filter (fun b => !(b.pages.contains page)) }
      else s
    { s1 with mem := updFn s1.mem addr val }

/-- Run of the self-modifying-code model from a state through a list of
events. -/
def dynRun (s : DynState) (ops : List DynOp) : DynState :=
  ops.foldl dynStep s

/-- Power-on state: zeroed memory, empty block cache, no page flagged as
containing code. -/
def initDyn : DynState :=
  { mem := fun _ => 0, cache := [], hasCode := fun _ => false }

/-- A cached block is fresh when the bytes it was translated from are still
the current memory contents, so executing it reflects the current bytes. -/
def blockFresh (s : DynState) (b : CacheBlock) : Prop :=
  b.bytes = (List.range b.len).map (fun i => s.mem (b.start + i))

/-- Consistency invariant of the block cache: every cached block records
its originating pages correctly, all those pages are flagged has-code, and
the block is fresh. -/
def cacheOk (s : DynState) : Prop :=
  ∀ b ∈ s.cache,
    b.pages = blockPages b.start b.len ∧
    (∀ pg ∈ b.pages, s.hasCode pg = true) ∧
    blockFresh s b

/-- Test fixture: a page handler whose reads yield 0, whose writes keep the
device state, and whose checked operations always succeed. -/
def trivialHandler : PageHandlerS :=
  { readb := fun _ _ => 0
    readw := fun _ _ => 0
    readd := fun _ _ => 0
    readq := fun _ _ => 0
    writeb := fun _ _ dv => dv
    writew := fun _ _ dv => dv
    writed := fun _ _ dv => dv
    writeq := fun _ _ dv => dv
    readb_checked := fun _ _ => some 0
    readw_checked := fun _ _ => some 0
    readd_checked := fun _ _ => some 0
    readq_checked := fun _ _ => some 0
    writeb_checked := fun _ _ dv => some dv
    writew_checked := fun _ _ dv => some dv
    writed_checked := fun _ _ dv => some dv
    writeq_checked := fun _ _ dv => some dv }

/-- Test fixture: a page handler whose checked operations all report
failure, as an unmapped page's handler does. -/
def failHandler : PageHandlerS :=
  { trivialHandler with
    readb_checked := fun _ _ => none
    readw_checked := fun _ _ => none
    readd_checked := fun _ _ => none
    readq_checked := fun _ _ => none
    writeb_checked := fun _ _ _ => none
    writew_checked := fun _ _ _ => none
    writed_checked := fun _ _ _ => none
    writeq_checked := fun _ _ _ => none }

/-- Test fixture: an ATC whose every page has non-null host read and write
pointers with base offset 0. -/
def fastTlb : PagingTlbS :=
  { read := fun _ => some 0
    write := fun _ => some 0
    readhandler := fun _ => trivialHandler
    writehandler := fun _ => trivialHandler }

/-- Test fixture: an ATC whose every page has null host pointers, so every
access routes through the (always succeeding) handler. -/
def slowTlb : PagingTlbS :=
  { read := fun _ => none
    write := fun _ => none
    readhandler := fun _ => trivialHandler
    writehandler := fun _ => trivialHandler }

/-- Test fixture: an ATC whose every page has null host pointers and a
handler whose checked operations fail. -/
def failTlb : PagingTlbS :=
  { read := fun _ => none
    write := fun _ => none
    readhandler := fun _ => failHandler
    writehandler := fun _ => failHandler }

/-- Test fixture: zeroed host memory and device state. -/
def zeroMachine : MachineS :=
  { host := fun _ => 0, dev := fun _ => 0 }

theorem and_one_eq_mod (x : Nat) : x &&& 1 = x % 2 := Nat.and_one_is_mod x

theorem and_seven_eq_mod (x : Nat) : x &&& 7 = x % 8 := by
  have h := Nat.and_pow_two_sub_one_eq_mod x 3
  norm_num at h
  exact h

theorem and_fff_eq_mod (x : Nat) : x &&& 4095 = x % 4096 := by
  have h := Nat.and_pow_two_sub_one_eq_mod x 12
  norm_num at h
  exact h

theorem and_fffff_eq_mod (x : Nat) : x &&& 1048575 = x % 1048576 := by
  have h := Nat.and_pow_two_sub_one_eq_mod x 20
  norm_num at h
  exact h

theorem lor_shiftLeft_eq_add {b k : Nat} (a : Nat) (h : b < 2 ^ k) :
    b ||| a <<< k = 2 ^ k * a + b := by
  apply Nat.eq_of_testBit_eq
  intro i
  rw [Nat.testBit_or, Nat.testBit_shiftLeft, Nat.testBit_mul_pow_two_add a h i]
  by_cases hik : i < k
  · have hge : ¬ (i ≥ k) := by omega
    simp [hik, hge]
  · have hb : b.testBit i = false :=
      Nat.testBit_lt_two_pow (lt_of_lt_of_le h (Nat.pow_le_pow_right (by norm_num) (by omega)))
    simp [hik, hb, (by omega : i ≥ k)]

theorem shiftRight_one_lt (v : Nat) (hv : v ≠ 0) : v >>> 1 < v := by
  rw [Nat.shiftRight_eq_div_pow]
  exact Nat.div_lt_self (Nat.pos_of_ne_zero hv) (by norm_num)

theorem bsfLoop_eq_step (v r : Nat) (h : v ≠ 0 ∧ v &&& 0x01 = 0) :
    bsfLoop v r = bsfLoop (v >>> 1) (r + 1) := by
  rw [bsfLoop, dif_pos h]

theorem bsfLoop_eq_done (v r : Nat) (h : ¬(v ≠ 0 ∧ v &&& 0x01 = 0)) :
    bsfLoop v r = r := by
  rw [bsfLoop, dif_neg h]

theorem bsfLoop_acc (v : Nat) : ∀ r, bsfLoop v r = bsfLoop v 0 + r := by
  induction v using Nat.strong_induction_on with
  | _ v ih =>
    intro r
    by_cases h : v ≠ 0 ∧ v &&& 0x01 = 0
    · have hlt : v >>> 1 < v := shiftRight_one_lt v h.1
      rw [bsfLoop_eq_step v r h, bsfLoop_eq_step v 0 h, ih _ hlt (r + 1),
        ih _ hlt (0 + 1)]
      omega
    · rw [bsfLoop_eq_done v r h, bsfLoop_eq_done v 0 h]
      omega

theorem bsfLoop_lsb (v : Nat) (hv : v ≠ 0) :
    v.testBit (bsfLoop v 0) = true ∧ ∀ j < bsfLoop v 0, v.testBit j = false := by
  induction v using Nat.strong_induction_on with
  | _ v ih =>
    by_cases h1 : v &&& 0x01 = 0
    · have hmod : v % 2 = 0 := by
        have := Nat.and_one_is_mod v
        omega
      have hhalf : v >>> 1 = v / 2 := by
        rw [Nat.shiftRight_eq_div_pow, pow_one]
      have hhalf0 : v >>> 1 ≠ 0 := by
        rw [hhalf]
        intro hc
        have : v = 0 := by omega
        exact hv this
      have hlt : v >>> 1 < v := shiftRight_one_lt v hv
      obtain ⟨ha, hb⟩ := ih (v >>> 1) hlt hhalf0
      have hstep : bsfLoop v 0 = bsfLoop (v >>> 1) 0 + 1 := by
        rw [bsfLoop_eq_step v 0 ⟨hv, h1⟩, bsfLoop_acc]
      constructor
      · rw [hstep, Nat.testBit_succ, ← hhalf]
        exact ha
      · intro j hj
        rw [hstep] at hj
        cases j with
        | zero =>
          simp [Nat.testBit_zero, hmod]
        | succ i =>
          rw [Nat.testBit_succ, ← hhalf]
          exact hb i (by omega)
    · have h0 : bsfLoop v 0 = 0 := bsfLoop_eq_done v 0 (by tauto)
      have hmod : v % 2 = 1 := by
        have := Nat.and_one_is_mod v
        omega
      refine ⟨?_, ?_⟩
      · rw [h0]
        simp [Nat.testBit_zero, hmod]
      · intro j hj
        omega

theorem mem_blockPages (start len p : Nat) :
    p ∈ blockPages start len ↔ ∃ i < len, (start + i) / 4096 = p := by
  unfold blockPages
  rw [List.mem_dedup, List.mem_map]
  constructor
  · rintro ⟨i, hi, hp⟩
    exact ⟨i, List.mem_range.mp hi, hp⟩
  · rintro ⟨i, hi, hp⟩
    exact ⟨i, List.mem_range.mpr hi, hp⟩

theorem blockFresh_write (s : DynState) (b : CacheBlock) (addr val : Nat)
    (h1 : b.pages = blockPages b.start b.len)
    (hp : addr / 4096 ∉ b.pages)
    (h3 : blockFresh s b) :
    blockFresh { s with mem := updFn s.mem addr val } b := by
  unfold blockFresh at h3 ⊢
  rw [h3]
  apply List.map_congr_left
  intro i hi
  have hi2 : i < b.len := List.mem_range.mp hi
  have hne : b.start + i ≠ addr := by
    intro he
    apply hp
    rw [h1, mem_blockPages]
    exact ⟨i, hi2, by rw [he]⟩
  simp [updFn, hne]

theorem contains_eq_mem_nat (l : List Nat) (a : Nat) :
    l.contains a = decide (a ∈ l) := by
  simp [List.contains]

theorem writeb_evicts (s : DynState) (hs : cacheOk s) (addr val : Nat) :
    ∀ b ∈ (dynStep s (DynOp.writeb addr val)).cache,
      addr / 4096 ∉ b.pages ∧
      blockFresh (dynStep s (DynOp.writeb addr val)) b := by
  intro b hb
  by_cases hc : s.hasCode (addr / 4096)
  · have hb2 : b ∈ s.cache.filter (fun b => !(b.pages.contains (addr / 4096))) := by
      simpa [dynStep, hc] using hb
    rw [List.mem_filter] at hb2
    obtain ⟨hbc, hbp⟩ := hb2
    have hnp : addr / 4096 ∉ b.pages := by
      simpa [contains_eq_mem_nat] using hbp
    obtain ⟨h1, h2, h3⟩ := hs b hbc
    refine ⟨hnp, ?_⟩
    have : dynStep s (DynOp.writeb addr val) =
        { s with cache := s.cache.filter (fun b => !(b.pages.contains (addr / 4096)))
                 mem := updFn s.mem addr val } := by
      simp [dynStep, hc]
    rw [this]
    exact blockFresh_write _ b addr val h1 hnp h3
  · have hb2 : b ∈ s.cache := by
      simpa [dynStep, hc] using hb
    obtain ⟨h1, h2, h3⟩ := hs b hb2
    have hnp : addr / 4096 ∉ b.pages := by
      intro hin
      exact hc (by simpa using h2 _ hin)
    refine ⟨hnp, ?_⟩
    have : dynStep s (DynOp.writeb addr val) =
        { s with mem := updFn s.mem addr val } := by
      simp [dynStep, hc]
    rw [this]
    exact blockFresh_write _ b addr val h1 hnp h3

theorem cacheOk_step (s : DynState) (hs : cacheOk s) (op : DynOp) :
    cacheOk (dynStep s op) := by
  cases op with
  | translate start len =>
    intro b hb
    rcases List.mem_cons.mp (by simpa [dynStep] using hb) with hnew | hold
    · subst hnew
      refine ⟨rfl, ?_, ?_⟩
      · intro pg hpg
        simp [dynStep]
        exact Or.inl (by simpa [translateBlock] using hpg)
      · unfold blockFresh translateBlock
        simp [dynStep]
    · obtain ⟨h1, h2, h3⟩ := hs b hold
      refine ⟨h1, ?_, ?_⟩
      · intro pg hpg
        simp [dynStep]
        exact Or.inr (h2 pg hpg)
      · unfold blockFresh at h3 ⊢
        simpa [dynStep] using h3
  | writeb addr val =>
    intro b hb
    have hev := writeb_evicts s hs addr val b hb
    refine ⟨?_, ?_, hev.2⟩
    · by_cases hc : s.hasCode (addr / 4096)
      · have hb2 : b ∈ s.cache.filter (fun b => !(b.pages.contains (addr / 4096))) := by
          simpa [dynStep, hc] using hb
        exact (hs b (List.mem_filter.mp hb2).1).1
      · have hb2 : b ∈ s.cache := by
          simpa [dynStep, hc] using hb
        exact (hs b hb2).1
    · intro pg hpg
      by_cases hc : s.hasCode (addr / 4096)
      · have hb2 : b ∈ s.cache.filter (fun b => !(b.pages.contains (addr / 4096))) := by
          simpa [dynStep, hc] using hb
        have := (hs b (List.mem_filter.mp hb2).1).2.1 pg hpg
        simpa [dynStep, hc] using this
      · have hb2 : b ∈ s.cache := by
          simpa [dynStep, hc] using hb
        have := (hs b hb2).2.1 pg hpg
        simpa [dynStep, hc] using this

theorem cacheOk_run (ops : List DynOp) (s : DynState) (hs : cacheOk s) :
    cacheOk (dynRun s ops) := by
  induction ops generalizing s with
  | nil => exact hs
  | cons op rest ih =>
    exact ih (dynStep s op) (cacheOk_step s hs op)

theorem cacheOk_init : cacheOk initDyn := by
  intro b hb
  simp [initDyn] at hb

/-- C1: self-modifying-code safety.  In every state reachable from power-on
by translations and guest writes, the block cache is consistent — every
cached block's originating pages are flagged has-code and its recorded
source bytes are the current memory bytes, so no stale translation is ever
executed — and after any write lands in a page, no block whose originating
physical pages include the written page remains cached, and every block
still cached reflects the post-write bytes. -/
theorem smc_no_stale_block (ops : List DynOp) (addr val : Nat) :
    cacheOk (dynRun initDyn ops) ∧
    ∀ b ∈ (dynStep (dynRun initDyn ops) (DynOp.writeb addr val)).cache,
      addr / 4096 ∉ b.pages ∧
      blockFresh (dynStep (dynRun initDyn ops) (DynOp.writeb addr val)) b := by
  have hok := cacheOk_run ops initDyn cacheOk_init
  exact ⟨hok, writeb_evicts _ hok addr val⟩

/-- Witness for C1 at a concrete run: translate the two bytes at address 0,
then write into page 1; the cached block of page 0 stays cached, does not
cover the written page, and is still fresh. -/
theorem smc_no_stale_block_witness :
    (⟨0, 2, [0, 0], [0]⟩ : CacheBlock) ∈
      (dynStep (dynRun initDyn [DynOp.translate 0 2]) (DynOp.writeb 4096 7)).cache ∧
    (4096 / 4096 ∉ (⟨0, 2, [0, 0], [0]⟩ : CacheBlock).pages ∧
      blockFresh (dynStep (dynRun initDyn [DynOp.translate 0 2]) (DynOp.writeb 4096 7))
        ⟨0, 2, [0, 0], [0]⟩) :=
  ⟨by decide, (smc_no_stale_block [DynOp.translate 0 2] 4096 7).2
      ⟨0, 2, [0, 0], [0]⟩ (by decide)⟩

/-- C6: every register-direct FPU operand setup of the dynamic recompiler
resolves logical register rm to physical slot (TOP + rm) mod 8: the mask to
3 bits computed by the emitted code is exactly the mod-8 slot resolution,
for dyn_fpu_top, dyn_fpu_top_swapped, the FLD STi setup, and the FUCOMPP
and FCOMPP setups (whose encoding fixes rm = 1). -/
theorem dyn_fpu_operand_slot (top rm : Nat) (r : GenRegs) :
    (dyn_fpu_top top rm r).fc_op2 = (top + rm) % 8 ∧
    (dyn_fpu_top top rm r).fc_op1 = top ∧
    (dyn_fpu_top_swapped top rm r).fc_op1 = (top + rm) % 8 ∧
    (dyn_fpu_top_swapped top rm r).fc_op2 = top ∧
    (dyn_fpu_esc1_fld_sti top rm r).fc_op1 = (top + rm) % 8 ∧
    (dyn_fpu_esc2_fucompp top r).fc_op2 = (top + 1) % 8 ∧
    (dyn_fpu_esc2_fucompp top r).fc_op1 = top ∧
    dyn_fpu_esc6_fcompp top 1 r =
      some { fc_op1 := top, fc_op2 := (top + 1) % 8 } := by
  have key : ∀ x : Nat, (x % 2 ^ 32) &&& 7 = x % 8 := by
    intro x
    rw [and_seven_eq_mod]
    omega
  refine ⟨key (top + rm), rfl, key (top + rm), rfl, key (top + rm),
    key (top + 1), rfl, ?_⟩
  unfold dyn_fpu_esc6_fcompp
  simp
  rw [and_seven_eq_mod]
  omega

/-- C7: the FPU stack pointer rotates modulo 8: FPU_FDECSTP sends top to
(top - 1) mod 8 (written (top + 7) mod 8 on naturals), FPU_FINCSTP sends
top to (top + 1) mod 8, both results stay in 0..7, and the two operations
are mutually inverse on any top in 0..7. -/
theorem fpu_top_rotate (top : Nat) (h : top < 8) :
    FPU_FDECSTP top = (top + 7) % 8 ∧
    FPU_FINCSTP top = (top + 1) % 8 ∧
    FPU_FDECSTP top < 8 ∧ FPU_FINCSTP top < 8 ∧
    FPU_FINCSTP (FPU_FDECSTP top) = top ∧
    FPU_FDECSTP (FPU_FINCSTP top) = top := by
  have hd : FPU_FDECSTP top = (top + 7) % 8 := by
    unfold FPU_FDECSTP
    rw [and_seven_eq_mod]
    omega
  have hi : FPU_FINCSTP top = (top + 1) % 8 := by
    unfold FPU_FINCSTP
    rw [and_seven_eq_mod]
    omega
  have hd8 : FPU_FDECSTP top < 8 := by omega
  have hi8 : FPU_FINCSTP top < 8 := by omega
  have hid : FPU_FINCSTP (FPU_FDECSTP top) = top := by
    rw [hd]
    unfold FPU_FINCSTP
    rw [and_seven_eq_mod]
    omega
  have hdi : FPU_FDECSTP (FPU_FINCSTP top) = top := by
    rw [hi]
    unfold FPU_FDECSTP
    rw [and_seven_eq_mod]
    omega
  exact ⟨hd, hi, hd8, hi8, hid, hdi⟩

/-- Witness for C7 at top = 0: decrement wraps to slot 7 and increment is
its inverse. -/
theorem fpu_top_rotate_witness :
    (0 : Nat) < 8 ∧
    (FPU_FDECSTP 0 = (0 + 7) % 8 ∧
      FPU_FINCSTP 0 = (0 + 1) % 8 ∧
      FPU_FDECSTP 0 < 8 ∧ FPU_FINCSTP 0 < 8 ∧
      FPU_FINCSTP (FPU_FDECSTP 0) = 0 ∧
      FPU_FDECSTP (FPU_FINCSTP 0) = 0) :=
  ⟨by norm_num, fpu_top_rotate 0 (by norm_num)⟩

/-- C10: the little-endian bit-field decomposition of X86PageEntry covers
all 32 bits without loss: for every 32-bit value, get after set is the
identity. -/
theorem x86PageEntry_set_get (v : Nat) (hv : v < 2 ^ 32) :
    (X86PageEntry.set v).get = v := by
  show (v &&& 0x1) ||| ((v >>> 1) &&& 0x1) <<< 1 ||| ((v >>> 2) &&& 0x1) <<< 2 |||
    ((v >>> 3) &&& 0x1) <<< 3 ||| ((v >>> 4) &&& 0x1) <<< 4 |||
    ((v >>> 5) &&& 0x1) <<< 5 ||| ((v >>> 6) &&& 0x1) <<< 6 |||
    ((v >>> 7) &&& 0x1) <<< 7 ||| ((v >>> 8) &&& 0x1) <<< 8 |||
    ((v >>> 9) &&& 0x7) <<< 9 ||| ((v >>> 12) &&& 0xFFFFF) <<< 12 = v
  simp only [Nat.shiftRight_eq_div_pow, and_one_eq_mod, and_seven_eq_mod,
    and_fffff_eq_mod]
  norm_num
  have h1 : v % 2 ||| (v / 2 % 2) <<< 1 = v % 4 := by
    rw [lor_shiftLeft_eq_add (v / 2 % 2) (show v % 2 < 2 ^ 1 by omega)]
    omega
  rw [h1]
  have h2 : v % 4 ||| (v / 4 % 2) <<< 2 = v % 8 := by
    rw [lor_shiftLeft_eq_add (v / 4 % 2) (show v % 4 < 2 ^ 2 by omega)]
    omega
  rw [h2]
  have h3 : v % 8 ||| (v / 8 % 2) <<< 3 = v % 16 := by
    rw [lor_shiftLeft_eq_add (v / 8 % 2) (show v % 8 < 2 ^ 3 by omega)]
    omega
  rw [h3]
  have h4 : v % 16 ||| (v / 16 % 2) <<< 4 = v % 32 := by
    rw [lor_shiftLeft_eq_add (v / 16 % 2) (show v % 16 < 2 ^ 4 by omega)]
    omega
  rw [h4]
  have h5 : v % 32 ||| (v / 32 % 2) <<< 5 = v % 64 := by
    rw [lor_shiftLeft_eq_add (v / 32 % 2) (show v % 32 < 2 ^ 5 by omega)]
    omega
  rw [h5]
  have h6 : v % 64 ||| (v / 64 % 2) <<< 6 = v % 128 := by
    rw [lor_shiftLeft_eq_add (v / 64 % 2) (show v % 64 < 2 ^ 6 by omega)]
    omega
  rw [h6]
  have h7 : v % 128 ||| (v / 128 % 2) <<< 7 = v % 256 := by
    rw [lor_shiftLeft_eq_add (v / 128 % 2) (show v % 128 < 2 ^ 7 by omega)]
    omega
  rw [h7]
  have h8 : v % 256 ||| (v / 256 % 2) <<< 8 = v % 512 := by
    rw [lor_shiftLeft_eq_add (v / 256 % 2) (show v % 256 < 2 ^ 8 by omega)]
    omega
  rw [h8]
  have h9 : v % 512 ||| (v / 512 % 8) <<< 9 = v % 4096 := by
    rw [lor_shiftLeft_eq_add (v / 512 % 8) (show v % 512 < 2 ^ 9 by omega)]
    omega
  rw [h9]
  have h10 : v % 4096 ||| (v / 4096 % 1048576) <<< 12 = v := by
    rw [lor_shiftLeft_eq_add (v / 4096 % 1048576) (show v % 4096 < 2 ^ 12 by omega)]
    omega
  rw [h10]

/-- Witness for C10 at the concrete 32-bit value 0x89ABCDEF. -/
theorem x86PageEntry_set_get_witness :
    (0x89ABCDEF : Nat) < 2 ^ 32 ∧ (X86PageEntry.set 0x89ABCDEF).get = 0x89ABCDEF :=
  ⟨by norm_num, x86PageEntry_set_get 0x89ABCDEF (by norm_num)⟩

/-- C2: byte-access routing of the ATC.  A byte read dereferences the
cached host read pointer when the ATC read pointer of the address's page is
non-null and otherwise invokes the page's registered read handler; a byte
write routes symmetrically through the host write pointer or the write
handler. -/
theorem mem_rw_byte_dispatch (tlb : PagingTlbS) (m : MachineS) (address v : Nat) :
    (∀ b, tlb.read (address >>> 12) = some b →
      mem_readb_inline tlb m address = m.host (b + address)) ∧
    (tlb.read (address >>> 12) = none →
      mem_readb_inline tlb m address =
        (tlb.readhandler (address >>> 12)).readb address m.dev) ∧
    (∀ b, tlb.write (address >>> 12) = some b →
      mem_writeb_inline tlb m address v =
        { m with host := host_writeb m.host (b + address) v }) ∧
    (tlb.write (address >>> 12) = none →
      mem_writeb_inline tlb m address v =
        { m with dev := (tlb.writehandler (address >>> 12)).writeb address v m.dev }) := by
  refine ⟨?_, ?_, ?_, ?_⟩
  · intro b hb
    unfold mem_readb_inline get_tlb_read host_readb
    rw [hb]
  · intro hb
    unfold mem_readb_inline get_tlb_read get_tlb_readhandler
    rw [hb]
  · intro b hb
    unfold mem_writeb_inline get_tlb_write
    rw [hb]
  · intro hb
    unfold mem_writeb_inline get_tlb_write get_tlb_writehandler
    rw [hb]

/-- Witness for C2 on concrete fixtures: a non-null ATC entry takes the
host fast path and a null entry routes through the handler, for both
directions. -/
theorem mem_rw_byte_dispatch_witness :
    mem_readb_inline fastTlb zeroMachine 5 = zeroMachine.host (0 + 5) ∧
    mem_readb_inline slowTlb zeroMachine 5 =
      (slowTlb.readhandler (5 >>> 12)).readb 5 zeroMachine.dev ∧
    mem_writeb_inline fastTlb zeroMachine 5 9 =
      { zeroMachine with host := host_writeb zeroMachine.host (0 + 5) 9 } ∧
    mem_writeb_inline slowTlb zeroMachine 5 9 =
      { zeroMachine with dev := (slowTlb.writehandler (5 >>> 12)).writeb 5 9 zeroMachine.dev } :=
  ⟨(mem_rw_byte_dispatch fastTlb zeroMachine 5 9).1 0 rfl,
   (mem_rw_byte_dispatch slowTlb zeroMachine 5 9).2.1 rfl,
   (mem_rw_byte_dispatch fastTlb zeroMachine 5 9).2.2.1 0 rfl,
   (mem_rw_byte_dispatch slowTlb zeroMachine 5 9).2.2.2 rfl⟩

/-- C5: the MOV Rd,CRx handler decoding 0F 20 C0 (control register 0 into
register 0) succeeds at privilege level 0 in protected mode, loading the
control register's value into the destination register, and faults at any
non-zero privilege level with the state returned unmodified. -/
theorem mov_rd_crx_gating (s : DecodeState) :
    (s.cpu.pmode = true → s.cpu.cpl = 0 →
      exec_0f_20 s 0xC0 = (false, { s with regs := updFn s.regs 0 (s.cpu.cr 0) })) ∧
    (s.cpu.pmode = true → s.cpu.cpl ≠ 0 →
      exec_0f_20 s 0xC0 = (true, s)) := by
  constructor
  · intro hp hc
    simp [exec_0f_20, CPU_READ_CRX, hc]
    rw [(by decide : (192 : Nat) &&& 7 = 0), (by decide : (24 : Nat) &&& 7 = 0)]
  · intro hp hc
    simp [exec_0f_20, CPU_READ_CRX, hp, hc]

/-- Witness for C5: with control register 0 holding 11, execution at
privilege 0 loads 11 into register 0, and execution at privilege 3 faults
without touching the state. -/
theorem mov_rd_crx_gating_witness :
    exec_0f_20 ⟨⟨true, 0, fun _ => 11⟩, fun _ => 0⟩ 0xC0 =
      (false, { (⟨⟨true, 0, fun _ => 11⟩, fun _ => 0⟩ : DecodeState) with
        regs := updFn (fun _ => 0) 0 ((fun _ => (11 : Nat)) 0) }) ∧
    exec_0f_20 ⟨⟨true, 3, fun _ => 11⟩, fun _ => 0⟩ 0xC0 =
      (true, ⟨⟨true, 3, fun _ => 11⟩, fun _ => 0⟩) :=
  ⟨(mov_rd_crx_gating ⟨⟨true, 0, fun _ => 11⟩, fun _ => 0⟩).1 rfl rfl,
   (mov_rd_crx_gating ⟨⟨true, 3, fun _ => 11⟩, fun _ => 0⟩).2 rfl (by norm_num)⟩

/-- C8: CMPXCHG semantics for both opcodes.  With a memory operand a write
event is always issued — the source register on success, the original
value written back on failure, when the accumulator is also loaded with the
original value; with a register operand no memory write is issued and the
destination register is written only when the comparison succeeds; ZF is
set exactly when the comparison succeeds. -/
theorem cmpxchg_semantics (s : CoreState) (rm eaa : Nat) :
    (rm < 0xc0 →
      ((cmpxchg_eb_gb s rm eaa).writes = s.writes ++
        [(eaa, if s.regs 0 = s.mem eaa then s.regs ((rm >>> 3) &&& 7) else s.mem eaa)] ∧
       (cmpxchg_eb_gb s rm eaa).zf = decide (s.regs 0 = s.mem eaa) ∧
       (cmpxchg_eb_gb s rm eaa).mem = updFn s.mem eaa
         (if s.regs 0 = s.mem eaa then s.regs ((rm >>> 3) &&& 7) else s.mem eaa) ∧
       (s.regs 0 ≠ s.mem eaa → (cmpxchg_eb_gb s rm eaa).regs 0 = s.mem eaa)) ∧
      ((cmpxchg_ew_gw s rm eaa).writes = s.writes ++
        [(eaa, if s.regs 0 = s.mem eaa then s.regs ((rm >>> 3) &&& 7) else s.mem eaa)] ∧
       (cmpxchg_ew_gw s rm eaa).zf = decide (s.regs 0 = s.mem eaa) ∧
       (cmpxchg_ew_gw s rm eaa).mem = updFn s.mem eaa
         (if s.regs 0 = s.mem eaa then s.regs ((rm >>> 3) &&& 7) else s.mem eaa) ∧
       (s.regs 0 ≠ s.mem eaa → (cmpxchg_ew_gw s rm eaa).regs 0 = s.mem eaa))) ∧
    (0xc0 ≤ rm →
      ((cmpxchg_eb_gb s rm eaa).writes = s.writes ∧
       (cmpxchg_eb_gb s rm eaa).mem = s.mem ∧
       (cmpxchg_eb_gb s rm eaa).zf = decide (s.regs 0 = s.regs (rm &&& 7)) ∧
       (s.regs 0 = s.regs (rm &&& 7) →
         (cmpxchg_eb_gb s rm eaa).regs (rm &&& 7) = s.regs ((rm >>> 3) &&& 7)) ∧
       (s.regs 0 ≠ s.regs (rm &&& 7) →
         (cmpxchg_eb_gb s rm eaa).regs (rm &&& 7) = s.regs (rm &&& 7) ∧
         (cmpxchg_eb_gb s rm eaa).regs 0 = s.regs (rm &&& 7))) ∧
      ((cmpxchg_ew_gw s rm eaa).writes = s.writes ∧
       (cmpxchg_ew_gw s rm eaa).mem = s.mem ∧
       (cmpxchg_ew_gw s rm eaa).zf = decide (s.regs 0 = s.regs (rm &&& 7)) ∧
       (s.regs 0 = s.regs (rm &&& 7) →
         (cmpxchg_ew_gw s rm eaa).regs (rm &&& 7) = s.regs ((rm >>> 3) &&& 7)) ∧
       (s.regs 0 ≠ s.regs (rm &&& 7) →
         (cmpxchg_ew_gw s rm eaa).regs (rm &&& 7) = s.regs (rm &&& 7) ∧
         (cmpxchg_ew_gw s rm eaa).regs 0 = s.regs (rm &&& 7)))) := by
  constructor
  · intro hrm
    have hn : ¬ (0xc0 ≤ rm) := by omega
    constructor
    · by_cases he : s.regs 0 = s.mem eaa
      · simp [cmpxchg_eb_gb, hn, he, updFn]
      · simp [cmpxchg_eb_gb, hn, he, updFn]
    · by_cases he : s.regs 0 = s.mem eaa
      · simp [cmpxchg_ew_gw, hn, he, updFn]
      · simp [cmpxchg_ew_gw, hn, he, updFn]
  · intro hrm
    constructor
    · by_cases he : s.regs 0 = s.regs (rm &&& 7)
      · simp [cmpxchg_eb_gb, hrm, he, updFn]
      · simp [cmpxchg_eb_gb, hrm, he, updFn]
    · by_cases he : s.regs 0 = s.regs (rm &&& 7)
      · simp [cmpxchg_ew_gw, hrm, he, updFn]
      · simp [cmpxchg_ew_gw, hrm, he, updFn]

/-- Witness for C8 on concrete states: a failing memory-form comparison
still issues the write-back event and loads the accumulator, a succeeding
register-form comparison writes the destination register, and a failing
one leaves it unchanged. -/
theorem cmpxchg_semantics_witness :
    (cmpxchg_eb_gb ⟨fun i => i, fun _ => 5, [], false⟩ 0x08 100).writes =
      [] ++ [(100, 5)] ∧
    (cmpxchg_eb_gb ⟨fun i => i, fun _ => 5, [], false⟩ 0x08 100).regs 0 = 5 ∧
    (cmpxchg_ew_gw ⟨fun _ => 4, fun _ => 0, [], false⟩ 0xCA 0).regs (0xCA &&& 7) =
      (fun _ => (4 : Nat)) ((0xCA >>> 3) &&& 7) ∧
    (cmpxchg_eb_gb ⟨fun i => i, fun _ => 0, [], false⟩ 0xCA 0).regs (0xCA &&& 7) =
      (fun i => (i : Nat)) (0xCA &&& 7) :=
  ⟨by
    have h := ((cmpxchg_semantics ⟨fun i => i, fun _ => 5, [], false⟩ 0x08 100).1
      (by norm_num)).1.1
    simpa using h,
   by
    have h := ((cmpxchg_semantics ⟨fun i => i, fun _ => 5, [], false⟩ 0x08 100).1
      (by norm_num)).1.2.2.2 (by norm_num)
    simpa using h,
   ((cmpxchg_semantics ⟨fun _ => 4, fun _ => 0, [], false⟩ 0xCA 0).2
      (by norm_num)).2.2.2.2.1 rfl,
   (((cmpxchg_semantics ⟨fun i => i, fun _ => 0, [], false⟩ 0xCA 0).2
      (by norm_num)).1.2.2.2.2 (by decide)).1⟩

/-- C9: BSF Gw,Ew.  A zero source sets ZF and leaves the whole state —
including the destination register — unchanged apart from ZF; a non-zero
source clears ZF, touches only the destination register, and stores the
bit index of the least-significant set bit of the source. -/
theorem bsf_semantics (s : CoreState) (rm eaa : Nat) :
    ((if 0xc0 ≤ rm then s.regs (rm &&& 7) else s.mem eaa) = 0 →
      bsf_gw_ew s rm eaa = { s with zf := true }) ∧
    ((if 0xc0 ≤ rm then s.regs (rm &&& 7) else s.mem eaa) ≠ 0 →
      (bsf_gw_ew s rm eaa).zf = false ∧
      (bsf_gw_ew s rm eaa).mem = s.mem ∧
      (bsf_gw_ew s rm eaa).writes = s.writes ∧
      (∀ i, i ≠ (rm >>> 3) &&& 7 → (bsf_gw_ew s rm eaa).regs i = s.regs i) ∧
      Nat.testBit (if 0xc0 ≤ rm then s.regs (rm &&& 7) else s.mem eaa)
        ((bsf_gw_ew s rm eaa).regs ((rm >>> 3) &&& 7)) = true ∧
      ∀ j < (bsf_gw_ew s rm eaa).regs ((rm >>> 3) &&& 7),
        Nat.testBit (if 0xc0 ≤ rm then s.regs (rm &&& 7) else s.mem eaa) j = false) := by
  constructor
  · intro hv
    unfold bsf_gw_ew
    rw [hv]
    simp
  · intro hv
    have hr : (bsf_gw_ew s rm eaa).regs ((rm >>> 3) &&& 7) =
        bsfLoop (if 0xc0 ≤ rm then s.regs (rm &&& 7) else s.mem eaa) 0 := by
      unfold bsf_gw_ew
      simp [hv, updFn]
    obtain ⟨ha, hb⟩ := bsfLoop_lsb _ hv
    refine ⟨?_, ?_, ?_, ?_, ?_, ?_⟩
    · unfold bsf_gw_ew
      simp [hv]
    · unfold bsf_gw_ew
      simp [hv]
    · unfold bsf_gw_ew
      simp [hv]
    · intro i hi
      unfold bsf_gw_ew
      simp [hv, updFn, hi]
    · rw [hr]
      exact ha
    · intro j hj
      rw [hr] at hj
      exact hb j hj

/-- Witness for C9: a zero source (register form, register 1 holding 0)
only sets ZF; the source value 12 yields destination bit index 2. -/
theorem bsf_semantics_witness :
    bsf_gw_ew ⟨fun _ => 0, fun _ => 0, [], false⟩ 0xC1 0 =
      { (⟨fun _ => 0, fun _ => 0, [], false⟩ : CoreState) with zf := true } ∧
    (bsf_gw_ew ⟨fun _ => 12, fun _ => 0, [], false⟩ 0xC1 0).zf = false ∧
    Nat.testBit 12 ((bsf_gw_ew ⟨fun _ => 12, fun _ => 0, [], false⟩ 0xC1 0).regs 0) = true :=
  ⟨(bsf_semantics ⟨fun _ => 0, fun _ => 0, [], false⟩ 0xC1 0).1 (by norm_num),
   ((bsf_semantics ⟨fun _ => 12, fun _ => 0, [], false⟩ 0xC1 0).2 (by norm_num)).1,
   ((bsf_semantics ⟨fun _ => 12, fun _ => 0, [], false⟩ 0xC1 0).2 (by norm_num)).2.2.2.2.1⟩

/-- C3: page-boundary decomposition.  For word, dword and quadword
accesses the offset-mask guard in the inline accessors holds exactly when
all bytes of the access lie within one 4096-byte page; an in-page access is
serviced by the single-page fast-path/handler dispatch, and a straddling
access is never serviced by the fast path but is routed to the
corresponding unaligned-access fallback, which by construction decomposes
into single-page byte operations. -/
theorem mem_access_page_straddle (tlb : PagingTlbS) (m : MachineS) (address v : Nat) :
    ((address &&& 0xfff < 0xfff) ↔ address / 4096 = (address + 1) / 4096) ∧
    (address / 4096 = (address + 1) / 4096 →
      mem_readw_inline tlb m address = (match tlb.read (address >>> 12) with
        | some b => host_readw m.host (b + address)
        | none => (tlb.readhandler (address >>> 12)).readw address m.dev) ∧
      mem_writew_inline tlb m address v = (match tlb.write (address >>> 12) with
        | some b => { m with host := host_writew m.host (b + address) v }
        | none => { m with dev := (tlb.writehandler (address >>> 12)).writew address v m.dev })) ∧
    (address / 4096 ≠ (address + 1) / 4096 →
      mem_readw_inline tlb m address = mem_unalignedreadw tlb m address ∧
      mem_writew_inline tlb m address v = mem_unalignedwritew tlb m address v) ∧
    ((address &&& 0xfff < 0xffd) ↔ address / 4096 = (address + 3) / 4096) ∧
    (address / 4096 = (address + 3) / 4096 →
      mem_readd_inline tlb m address = (match tlb.read (address >>> 12) with
        | some b => host_readd m.host (b + address)
        | none => (tlb.readhandler (address >>> 12)).readd address m.dev) ∧
      mem_writed_inline tlb m address v = (match tlb.write (address >>> 12) with
        | some b => { m with host := host_writed m.host (b + address) v }
        | none => { m with dev := (tlb.writehandler (address >>> 12)).writed address v m.dev })) ∧
    (address / 4096 ≠ (address + 3) / 4096 →
      mem_readd_inline tlb m address = mem_unalignedreadd tlb m address ∧
      mem_writed_inline tlb m address v = mem_unalignedwrited tlb m address v) ∧
    ((address &&& 0xfff < 0xff9) ↔ address / 4096 = (address + 7) / 4096) ∧
    (address / 4096 = (address + 7) / 4096 →
      mem_readq_inline tlb m address = (match tlb.read (address >>> 12) with
        | some b => host_readq m.host (b + address)
        | none => (tlb.readhandler (address >>> 12)).readq address m.dev) ∧
      mem_writeq_inline tlb m address v = (match tlb.write (address >>> 12) with
        | some b => { m with host := host_writeq m.host (b + address) v }
        | none => { m with dev := (tlb.writehandler (address >>> 12)).writeq address v m.dev })) ∧
    (address / 4096 ≠ (address + 7) / 4096 →
      mem_readq_inline tlb m address = mem_unalignedreadq tlb m address ∧
      mem_writeq_inline tlb m address v = mem_unalignedwriteq tlb m address v) := by
  have hw : (address &&& 0xfff < 0xfff) ↔ address / 4096 = (address + 1) / 4096 := by
    rw [and_fff_eq_mod]
    omega
  have hd : (address &&& 0xfff < 0xffd) ↔ address / 4096 = (address + 3) / 4096 := by
    rw [and_fff_eq_mod]
    omega
  have hq : (address &&& 0xfff < 0xff9) ↔ address / 4096 = (address + 7) / 4096 := by
    rw [and_fff_eq_mod]
    omega
  refine ⟨hw, ?_, ?_, hd, ?_, ?_, hq, ?_, ?_⟩
  · intro h
    have hg := hw.mpr h
    constructor
    · unfold mem_readw_inline get_tlb_read get_tlb_readhandler
      rw [if_pos hg]
    · unfold mem_writew_inline get_tlb_write get_tlb_writehandler
      rw [if_pos hg]
  · intro h
    have hg : ¬ (address &&& 0xfff < 0xfff) := fun hc => h (hw.mp hc)
    constructor
    · unfold mem_readw_inline
      rw [if_neg hg]
    · unfold mem_writew_inline
      rw [if_neg hg]
  · intro h
    have hg := hd.mpr h
    constructor
    · unfold mem_readd_inline get_tlb_read get_tlb_readhandler
      rw [if_pos hg]
    · unfold mem_writed_inline get_tlb_write get_tlb_writehandler
      rw [if_pos hg]
  · intro h
    have hg : ¬ (address &&& 0xfff < 0xffd) := fun hc => h (hd.mp hc)
    constructor
    · unfold mem_readd_inline
      rw [if_neg hg]
    · unfold mem_writed_inline
      rw [if_neg hg]
  · intro h
    have hg := hq.mpr h
    constructor
    · unfold mem_readq_inline get_tlb_read get_tlb_readhandler
      rw [if_pos hg]
    · unfold mem_writeq_inline get_tlb_write get_tlb_writehandler
      rw [if_pos hg]
  · intro h
    have hg : ¬ (address &&& 0xfff < 0xff9) := fun hc => h (hq.mp hc)
    constructor
    · unfold mem_readq_inline
      rw [if_neg hg]
    · unfold mem_writeq_inline
      rw [if_neg hg]

/-- Witness for C3 on concrete inputs: address 0 is in-page for all sizes
and serviced by the fast path of the fixture ATC; page offsets 0xfff,
0xffd and 0xff9 straddle for word, dword and quadword respectively and are
routed to the unaligned fallbacks. -/
theorem mem_access_page_straddle_witness :
    ((0 : Nat) / 4096 = (0 + 1) / 4096) ∧
    mem_readw_inline fastTlb zeroMachine 0 = host_readw zeroMachine.host (0 + 0) ∧
    ((4095 : Nat) / 4096 ≠ (4095 + 1) / 4096) ∧
    mem_readw_inline fastTlb zeroMachine 4095 = mem_unalignedreadw fastTlb zeroMachine 4095 ∧
    mem_writew_inline fastTlb zeroMachine 4095 7 = mem_unalignedwritew fastTlb zeroMachine 4095 7 ∧
    mem_readd_inline fastTlb zeroMachine 4093 = mem_unalignedreadd fastTlb zeroMachine 4093 ∧
    mem_writed_inline fastTlb zeroMachine 4093 7 = mem_unalignedwrited fastTlb zeroMachine 4093 7 ∧
    mem_readq_inline fastTlb zeroMachine 4089 = mem_unalignedreadq fastTlb zeroMachine 4089 ∧
    mem_writeq_inline fastTlb zeroMachine 4089 7 = mem_unalignedwriteq fastTlb zeroMachine 4089 7 :=
  ⟨by norm_num,
   ((mem_access_page_straddle fastTlb zeroMachine 0 7).2.1 (by norm_num)).1,
   by norm_num,
   ((mem_access_page_straddle fastTlb zeroMachine 4095 7).2.2.1 (by norm_num)).1,
   ((mem_access_page_straddle fastTlb zeroMachine 4095 7).2.2.1 (by norm_num)).2,
   ((mem_access_page_straddle fastTlb zeroMachine 4093 7).2.2.2.2.2.1 (by norm_num)).1,
   ((mem_access_page_straddle fastTlb zeroMachine 4093 7).2.2.2.2.2.1 (by norm_num)).2,
   ((mem_access_page_straddle fastTlb zeroMachine 4089 7).2.2.2.2.2.2.2.2 (by norm_num)).1,
   ((mem_access_page_straddle fastTlb zeroMachine 4089 7).2.2.2.2.2.2.2.2 (by norm_num)).2⟩

theorem mem_readb_checked_fail (tlb : PagingTlbS) (m : MachineS) (address val : Nat)
    (h : (mem_readb_checked tlb m address val).1 = true) :
    (mem_readb_checked tlb m address val).2 = val := by
  unfold mem_readb_checked at h ⊢
  cases hg : get_tlb_read tlb address with
  | some b =>
    rw [hg] at h
    simp at h
  | none =>
    rw [hg] at h
    cases hh : (get_tlb_readhandler tlb address).readb_checked address m.dev with
    | some w =>
      rw [hh] at h
      simp at h
    | none => rfl

theorem mem_unalignedreadw_checked_fail (tlb : PagingTlbS) (m : MachineS)
    (address val : Nat)
    (h : (mem_unalignedreadw_checked tlb m address val).1 = true) :
    (mem_unalignedreadw_checked tlb m address val).2 = val := by
  unfold mem_unalignedreadw_checked at h ⊢
  by_cases h1 : (mem_readb_checked tlb m address 0).1 = true
  · simp [h1]
  · by_cases h2 : (mem_readb_checked tlb m (address + 1) 0).1 = true
    · simp [h1, h2]
    · simp [h1, h2] at h

theorem mem_unalignedreadd_checked_fail (tlb : PagingTlbS) (m : MachineS)
    (address val : Nat)
    (h : (mem_unalignedreadd_checked tlb m address val).1 = true) :
    (mem_unalignedreadd_checked tlb m address val).2 = val := by
  unfold mem_unalignedreadd_checked at h ⊢
  by_cases h1 : (mem_readb_checked tlb m address 0).1 = true
  · simp [h1]
  · by_cases h2 : (mem_readb_checked tlb m (address + 1) 0).1 = true
    · simp [h1, h2]
    · by_cases h3 : (mem_readb_checked tlb m (address + 2) 0).1 = true
      · simp [h1, h2, h3]
      · by_cases h4 : (mem_readb_checked tlb m (address + 3) 0).1 = true
        · simp [h1, h2, h3, h4]
        · simp [h1, h2, h3, h4] at h

theorem mem_unalignedreadq_checked_fail (tlb : PagingTlbS) (m : MachineS)
    (address val : Nat)
    (h : (mem_unalignedreadq_checked tlb m address val).1 = true) :
    (mem_unalignedreadq_checked tlb m address val).2 = val := by
  unfold mem_unalignedreadq_checked at h ⊢
  by_cases h1 : (mem_readb_checked tlb m address 0).1 = true
  · simp [h1]
  · by_cases h2 : (mem_readb_checked tlb m (address + 1) 0).1 = true
    · simp [h1, h2]
    · by_cases h3 : (mem_readb_checked tlb m (address + 2) 0).1 = true
      · simp [h1, h2, h3]
      · by_cases h4 : (mem_readb_checked tlb m (address + 3) 0).1 = true
        · simp [h1, h2, h3, h4]
        · by_cases h5 : (mem_readb_checked tlb m (address + 4) 0).1 = true
          · simp [h1, h2, h3, h4, h5]
          · by_cases h6 : (mem_readb_checked tlb m (address + 5) 0).1 = true
            · simp [h1, h2, h3, h4, h5, h6]
            · by_cases h7 : (mem_readb_checked tlb m (address + 6) 0).1 = true
              · simp [h1, h2, h3, h4, h5, h6, h7]
              · by_cases h8 : (mem_readb_checked tlb m (address + 7) 0).1 = true
                · simp [h1, h2, h3, h4, h5, h6, h7, h8]
                · simp [h1, h2, h3, h4, h5, h6, h7, h8] at h

theorem mem_readw_checked_fail (tlb : PagingTlbS) (m : MachineS) (address val : Nat)
    (h : (mem_readw_checked tlb m address val).1 = true) :
    (mem_readw_checked tlb m address val).2 = val := by
  unfold mem_readw_checked at h ⊢
  by_cases hg : address &&& 0xfff < 0xfff
  · rw [if_pos hg] at h ⊢
    cases hr : get_tlb_read tlb address with
    | some b =>
      rw [hr] at h
      simp at h
    | none =>
      rw [hr] at h
      cases hh : (get_tlb_readhandler tlb address).readw_checked address m.dev with
      | some w =>
        rw [hh] at h
        simp at h
      | none => rfl
  · rw [if_neg hg] at h ⊢
    exact mem_unalignedreadw_checked_fail tlb m address val h

theorem mem_readd_checked_fail (tlb : PagingTlbS) (m : MachineS) (address val : Nat)
    (h : (mem_readd_checked tlb m address val).1 = true) :
    (mem_readd_checked tlb m address val).2 = val := by
  unfold mem_readd_checked at h ⊢
  by_cases hg : address &&& 0xfff < 0xffd
  · rw [if_pos hg] at h ⊢
    cases hr : get_tlb_read tlb address with
    | some b =>
      rw [hr] at h
      simp at h
    | none =>
      rw [hr] at h
      cases hh : (get_tlb_readhandler tlb address).readd_checked address m.dev with
      | some w =>
        rw [hh] at h
        simp at h
      | none => rfl
  · rw [if_neg hg] at h ⊢
    exact mem_unalignedreadd_checked_fail tlb m address val h

theorem mem_readq_checked_fail (tlb : PagingTlbS) (m : MachineS) (address val : Nat)
    (h : (mem_readq_checked tlb m address val).1 = true) :
    (mem_readq_checked tlb m address val).2 = val := by
  unfold mem_readq_checked at h ⊢
  by_cases hg : address &&& 0xfff < 0xff9
  · rw [if_pos hg] at h ⊢
    cases hr : get_tlb_read tlb address with
    | some b =>
      rw [hr] at h
      simp at h
    | none =>
      rw [hr] at h
      cases hh : (get_tlb_readhandler tlb address).readq_checked address m.dev with
      | some w =>
        rw [hh] at h
        simp at h
      | none => rfl
  · rw [if_neg hg] at h ⊢
    exact mem_unalignedreadq_checked_fail tlb m address val h

/-- C4: the checked access variants.  They are total functions returning a
status flag (false = success, mirroring the C convention where true
reports the fault) rather than trapping; a failed checked read of any size
leaves the caller's output value unmodified; and on a page with a non-null
cached pointer every checked read stores exactly the value the trapping
read returns and reports success, and every checked write performs exactly
the trapping write's effect and reports success (word and larger sizes on
their in-page fast path). -/
theorem mem_checked_contract (tlb : PagingTlbS) (m : MachineS) (address val v : Nat) :
    ((mem_readb_checked tlb m address val).1 = true →
      (mem_readb_checked tlb m address val).2 = val) ∧
    ((mem_readw_checked tlb m address val).1 = true →
      (mem_readw_checked tlb m address val).2 = val) ∧
    ((mem_readd_checked tlb m address val).1 = true →
      (mem_readd_checked tlb m address val).2 = val) ∧
    ((mem_readq_checked tlb m address val).1 = true →
      (mem_readq_checked tlb m address val).2 = val) ∧
    (∀ b, tlb.read (address >>> 12) = some b →
      mem_readb_checked tlb m address val = (false, mem_readb_inline tlb m address)) ∧
    (address &&& 0xfff < 0xfff → ∀ b, tlb.read (address >>> 12) = some b →
      mem_readw_checked tlb m address val = (false, mem_readw_inline tlb m address)) ∧
    (address &&& 0xfff < 0xffd → ∀ b, tlb.read (address >>> 12) = some b →
      mem_readd_checked tlb m address val = (false, mem_readd_inline tlb m address)) ∧
    (address &&& 0xfff < 0xff9 → ∀ b, tlb.read (address >>> 12) = some b →
      mem_readq_checked tlb m address val = (false, mem_readq_inline tlb m address)) ∧
    (∀ b, tlb.write (address >>> 12) = some b →
      mem_writeb_checked tlb m address v = (false, mem_writeb_inline tlb m address v)) ∧
    (address &&& 0xfff < 0xfff → ∀ b, tlb.write (address >>> 12) = some b →
      mem_writew_checked tlb m address v = (false, mem_writew_inline tlb m address v)) ∧
    (address &&& 0xfff < 0xffd → ∀ b, tlb.write (address >>> 12) = some b →
      mem_writed_checked tlb m address v = (false, mem_writed_inline tlb m address v)) ∧
    (address &&& 0xfff < 0xff9 → ∀ b, tlb.write (address >>> 12) = some b →
      mem_writeq_checked tlb m address v = (false, mem_writeq_inline tlb m address v)) := by
  refine ⟨mem_readb_checked_fail tlb m address val,
    mem_readw_checked_fail tlb m address val,
    mem_readd_checked_fail tlb m address val,
    mem_readq_checked_fail tlb m address val,
    ?_, ?_, ?_, ?_, ?_, ?_, ?_, ?_⟩
  · intro b hb
    unfold mem_readb_checked mem_readb_inline get_tlb_read
    rw [hb]
  · intro hg b hb
    unfold mem_readw_checked mem_readw_inline get_tlb_read
    rw [if_pos hg, hb, if_pos hg]
  · intro hg b hb
    unfold mem_readd_checked mem_readd_inline get_tlb_read
    rw [if_pos hg, hb, if_pos hg]
  · intro hg b hb
    unfold mem_readq_checked mem_readq_inline get_tlb_read
    rw [if_pos hg, hb, if_pos hg]
  · intro b hb
    unfold mem_writeb_checked mem_writeb_inline get_tlb_write
    rw [hb]
  · intro hg b hb
    unfold mem_writew_checked mem_writew_inline get_tlb_write
    rw [if_pos hg, hb, if_pos hg]
  · intro hg b hb
    unfold mem_writed_checked mem_writed_inline get_tlb_write
    rw [if_pos hg, hb, if_pos hg]
  · intro hg b hb
    unfold mem_writeq_checked mem_writeq_inline get_tlb_write
    rw [if_pos hg, hb, if_pos hg]

/-- Witness for C4 on concrete fixtures: a failing handler leaves the
caller's output 42 unmodified for byte and quadword reads, and on the
all-fast ATC the checked byte read and quadword write agree with their
trapping counterparts and report success. -/
theorem mem_checked_contract_witness :
    (mem_readb_checked failTlb zeroMachine 5 42).2 = 42 ∧
    (mem_readq_checked failTlb zeroMachine 5 42).2 = 42 ∧
    mem_readb_checked fastTlb zeroMachine 5 42 =
      (false, mem_readb_inline fastTlb zeroMachine 5) ∧
    mem_readw_checked fastTlb zeroMachine 5 42 =
      (false, mem_readw_inline fastTlb zeroMachine 5) ∧
    mem_writeq_checked fastTlb zeroMachine 5 77 =
      (false, mem_writeq_inline fastTlb zeroMachine 5 77) :=
  ⟨(mem_checked_contract failTlb zeroMachine 5 42 0).1 (by decide),
   (mem_checked_contract failTlb zeroMachine 5 42 0).2.2.2.1 (by decide),
   (mem_checked_contract fastTlb zeroMachine 5 42 0).2.2.2.2.1 0 rfl,
   (mem_checked_contract fastTlb zeroMachine 5 42 0).2.2.2.2.2.1 (by decide) 0 rfl,
   (mem_checked_contract fastTlb zeroMachine 5 42 77).2.2.2.2.2.2.2.2.2.2.2 (by decide) 0 rfl⟩
